import Mathlib

/-!
Shallow embedding of the Evenza announcement/notification subsystem
(`routes/announcements.js`, `routes/notifications.js`).

Conventions of the embedding:
* timestamps are naturals (epoch milliseconds); `now` is passed explicitly
  where the JS code calls `new Date()` / SQL `NOW()`;
* SQL tables are Lean lists of structures, auto-increment counters are
  explicit fields of the `DB` state;
* nullable SQL columns are `Option`; JS `undefined` (field absent from the
  request body) is the outer `none` of an `Option`-wrapped input;
* JS `String(x || "").toLowerCase()` is modelled by `lowerStr` over the
  ASCII statuses the system uses;
* request handlers become pure functions `DB → inputs → DB × Res α`,
  where `Res` carries the JSON result or the error response.
-/

/-- ASCII lowercase of one character (model of JS `toLowerCase` on the
status vocabulary, which is ASCII only). -/
def lowerChar (c : Char) : Char :=
  if 'A' ≤ c ∧ c ≤ 'Z' then Char.ofNat (c.toNat + 32) else c

/-- ASCII lowercase of a string. -/
def lowerStr (s : String) : String :=
  String.mk (s.data.map lowerChar)

/-- Function `toDbStatus` from routes/announcements.js: normalize a client status
(or an absent value) to the `announcements.status` vocabulary.
JS: `String(status || "").toLowerCase()` then the draft/pending/scheduled/sent
table, defaulting to `"draft"`. -/
def toDbStatus (status : Option String) : String :=
  let s := lowerStr (status.getD "")
  if s = "draft" ∨ s = "pending" then "draft"
  else if s = "scheduled" then "scheduled"
  else if s = "sent" then "sent"
  else "draft"

example : toDbStatus (some "Scheduled") = "scheduled" := by decide
example : toDbStatus (some "SENT") = "sent" := by decide
example : toDbStatus none = "draft" := by decide
example : toDbStatus (some "bogus") = "draft" := by decide

/-- A row of the `announcements` table. -/
structure Announcement where
  announcement_id : Nat
  event_id : Option Nat
  title : Option String
  message : Option String
  status : String
  scheduled_at : Option Nat
  created_by : Option Nat
  created_at : Nat
  updated_at : Nat
  sent_at : Option Nat
deriving DecidableEq, Repr

/-- A row of the `notifications` table. -/
structure Notification where
  notification_id : Nat
  user_id : Nat
  event_id : Option Nat
  created_by : Option Nat
  type : String
  title : Option String
  message : Option String
  status : String
  is_read : Bool
  scheduled_at : Option Nat
  scheduled_by : Option Nat
  attempts : Nat
  error_message : Option String
  created_at : Nat
  sent_at : Option Nat
deriving DecidableEq, Repr

/-- The database state the announcement subsystem touches.
`registrations` is the projection (event_id, user_id); `events` is
(event_id, title).  `hasCreatedBy` models the `columnExists("notifications",
"created_by")` schema probe; the `announcements` table itself always exists
in the model (the server ensures it at boot). -/
structure DB where
  announcements : List Announcement
  notifications : List Notification
  registrations : List (Nat × Nat)
  events : List (Nat × String)
  nextAnnouncementId : Nat
  nextNotificationId : Nat
  hasCreatedBy : Bool
deriving DecidableEq, Repr

/-- Errors the routes report (HTTP 400 / 404 / 403 in the source). -/
inductive ApiError where
  | validation (msg : String)
  | notFound (msg : String)
  | forbidden (msg : String)
deriving DecidableEq, Repr

/-- Result of a route handler: the JSON payload or the error response. -/
inductive Res (α : Type) where
  | ok (v : α)
  | err (e : ApiError)
deriving DecidableEq, Repr

/-- The counts object returned by `insertNotifications` and the send
endpoint. -/
structure SendResult where
  inserted : Nat
  requested : Nat
deriving DecidableEq, Repr

/-- JS truthiness of an optional string request field (`!title` is true for
`undefined` and for the empty string). -/
def present (o : Option String) : Bool :=
  match o with
  | none => false
  | some s => s ≠ ""

/-- Function `resolveEventId` from routes/announcements.js.  The numeric inputs are
modelled as already-parsed numbers (`event_id : Option Nat`); a
numeric-looking `event_title` is the same as passing `event_id`, and an
exact-title lookup runs against the `events` table otherwise. -/
def resolveEventId (db : DB) (event_id : Option Nat) (event_title : Option String) : Option Nat :=
  match event_id with
  | some e => some e
  | none =>
    match event_title with
    | some t => (db.events.find? (fun ev => ev.2 = t)).map (fun ev => ev.1)
    | none => none

/-- JS `eventId || fallback`: the fallback is used when `eventId` is null
or the (falsy) number 0. -/
def orElseEvent (e : Option Nat) (fallback : Option Nat) : Option Nat :=
  match e with
  | some v => if v = 0 then fallback else some v
  | none => fallback

/-- Function `getRecipientsForEvent` from routes/announcements.js: the DISTINCT
user_ids registered for the event; `[]` when the event reference is falsy
(null or 0). -/
def getRecipientsForEvent (db : DB) (eventId : Option Nat) : List Nat :=
  match eventId with
  | none => []
  | some e =>
    if e = 0 then []
    else ((db.registrations.filter (fun p => p.1 = e)).map (fun p => p.2)).dedup

/-- The notification rows built by `insertNotifications` for a recipient
list, with auto-increment ids starting at `startId`.  Mirrors the
`values = recipients.map(...)` tuple of the source: type `in-app`,
status `pending` when the normalized status is `draft`, `is_read = 0`,
`attempts = 0`, `sent_at = now` exactly when the status is `sent`. -/
def mkNotifRows (startId : Nat) (hasCreatedBy : Bool) (event_id : Option Nat)
    (title message : Option String) (status : String) (scheduled_at : Option Nat)
    (creator : Nat) (now : Nat) : List Nat → List Notification
  | [] => []
  | uid :: rest =>
    { notification_id := startId
      user_id := uid
      event_id := event_id
      created_by := if hasCreatedBy then some creator else none
      type := "in-app"
      title := title
      message := message
      status := if lowerStr status = "draft" then "pending" else lowerStr status
      is_read := false
      scheduled_at := scheduled_at
      scheduled_by := some creator
      attempts := 0
      error_message := none
      created_at := now
      sent_at := if lowerStr status = "sent" then some now else none } ::
    mkNotifRows (startId + 1) hasCreatedBy event_id title message status scheduled_at creator now rest

/-- Function `insertNotifications` from routes/announcements.js: no-op returning
`{inserted: 0, requested: 0}` on an empty recipient list, otherwise one
bulk INSERT of one row per recipient (affectedRows = recipients.length). -/
def insertNotifications (db : DB) (recipients : List Nat) (event_id : Option Nat)
    (title message : Option String) (status : String) (scheduled_at : Option Nat)
    (creator : Nat) (now : Nat) : DB × SendResult :=
  if recipients.isEmpty then (db, ⟨0, 0⟩)
  else
    let rows := mkNotifRows db.nextNotificationId db.hasCreatedBy event_id title
      message status scheduled_at creator now recipients
    ({ db with
        notifications := db.notifications ++ rows
        nextNotificationId := db.nextNotificationId + recipients.length },
     ⟨recipients.length, recipients.length⟩)

/-- Apply an UPDATE to every `announcements` row with the given id. -/
def updateAnnRow (db : DB) (id : Nat) (f : Announcement → Announcement) : DB :=
  { db with
      announcements := db.announcements.map
        (fun a => if a.announcement_id = id then f a else a) }

/-- Look up an announcement row by id (`SELECT ... WHERE announcement_id = ?`,
first row). -/
def annById (db : DB) (id : Nat) : Option Announcement :=
  db.announcements.find? (fun a => a.announcement_id = id)

/-- Response of POST /api/announcements: `{ok, announcementId, sent?}`. -/
structure CreateResult where
  announcementId : Nat
  sent : Option SendResult
deriving DecidableEq, Repr

/-- POST /api/announcements (create).  `scheduled_at` is the already-parsed
request value (`none` when absent).  Validates only title/message, inserts
the announcement row with `toDbStatus` of the requested status, and when the
stored status is `sent` (or `markSent` is set) resolves recipients,
dispatches, and flips the row to `sent`/`sent_at`. -/
def createAnnouncement (db : DB) (creator : Nat) (event_id : Option Nat)
    (event_title : Option String) (title message : Option String)
    (status : Option String) (scheduled_at : Option Nat) (markSent : Bool)
    (now : Nat) : DB × Res CreateResult :=
  if !present title || !present message then
    (db, .err (.validation "title and message are required"))
  else
    let eventId := resolveEventId db event_id none
    let dbStatus := toDbStatus status
    let ann : Announcement :=
      { announcement_id := db.nextAnnouncementId
        event_id := eventId
        title := title
        message := message
        status := dbStatus
        scheduled_at := scheduled_at
        created_by := some creator
        created_at := now
        updated_at := now
        sent_at := none }
    let db1 : DB :=
      { db with
          announcements := db.announcements ++ [ann]
          nextAnnouncementId := db.nextAnnouncementId + 1 }
    if dbStatus = "sent" || markSent then
      let resolvedEventId := orElseEvent eventId (resolveEventId db1 none event_title)
      let recipients := getRecipientsForEvent db1 resolvedEventId
      let sentPair := insertNotifications db1 recipients resolvedEventId title message
        "sent" none creator now
      let db3 := updateAnnRow sentPair.1 ann.announcement_id
        (fun a => { a with status := "sent", sent_at := some now, updated_at := now })
      (db3, .ok ⟨ann.announcement_id, some sentPair.2⟩)
    else
      (db1, .ok ⟨ann.announcement_id, none⟩)

/-- Response of PATCH /api/announcements/:id: `{ok, announcementId?, sent?}`
(`announcementId` is present only on the legacy-notification materialize
path, `sent` only when the call dispatched). -/
structure UpdateResult where
  announcementId : Option Nat
  sent : Option SendResult
deriving DecidableEq, Repr

/-- PATCH /api/announcements/:id.  The `Option`-wrapped inputs model JS
`undefined` (outer `none` = field absent); `scheduled_at`'s inner `none`
and `newEventId`'s inner `none` model explicit nulls/falsy values.
Behavior mirrored from the source:
* id found in `announcements`: apply the provided fields, and when the
  resulting status is `sent` while the stored one was not, fan out to the
  recipients of the row's old `event_id` and stamp `sent_at`;
* id not found there but found in `notifications`: insert a fresh
  announcement row seeded from the notification (status from the body or
  `draft`, `sent_at = now` when that status is `sent`) and return without
  any fan-out;
* neither: 404. -/
def updateAnnouncement (db : DB) (id : Nat) (updater : Nat)
    (title message : Option String) (status : Option String)
    (scheduled_at : Option (Option Nat)) (newEventId : Option (Option Nat))
    (now : Nat) : DB × Res UpdateResult :=
  match db.announcements.find? (fun a => a.announcement_id = id) with
  | none =>
    match db.notifications.find? (fun n => n.notification_id = id) with
    | none => (db, .err (.notFound "Announcement not found"))
    | some notif =>
      let targetStatusFromBody :=
        match status with
        | some s => toDbStatus (some s)
        | none => "draft"
      let eventIdToUse :=
        match newEventId with
        | some (some e) => some e
        | _ => notif.event_id
      let ann : Announcement :=
        { announcement_id := db.nextAnnouncementId
          event_id := eventIdToUse
          title := match title with | some t => some t | none => notif.title
          message := match message with | some m => some m | none => notif.message
          status := targetStatusFromBody
          scheduled_at := match scheduled_at with | some (some t) => some t | _ => none
          created_by := some updater
          created_at := now
          updated_at := now
          sent_at := if targetStatusFromBody = "sent" then some now else none }
      ({ db with
          announcements := db.announcements ++ [ann]
          nextAnnouncementId := db.nextAnnouncementId + 1 },
       .ok ⟨some ann.announcement_id, none⟩)
  | some existing =>
    let targetStatus :=
      match status with
      | some s => toDbStatus (some s)
      | none => existing.status
    let db1 := updateAnnRow db id (fun a =>
      { a with
          title := match title with | some t => some t | none => a.title
          message := match message with | some m => some m | none => a.message
          event_id := match newEventId with | some v => v | none => a.event_id
          status := match status with | some _ => targetStatus | none => a.status
          scheduled_at := match scheduled_at with | some v => v | none => a.scheduled_at
          updated_at := now })
    if lowerStr targetStatus = "sent" && lowerStr existing.status ≠ "sent" then
      let recipients := getRecipientsForEvent db1 existing.event_id
      let sentPair := insertNotifications db1 recipients existing.event_id
        (match title with | some t => some t | none => existing.title)
        (match message with | some m => some m | none => existing.message)
        "sent" none updater now
      let db3 := updateAnnRow sentPair.1 id (fun a => { a with sent_at := some now })
      (db3, .ok ⟨none, some sentPair.2⟩)
    else
      (db1, .ok ⟨none, none⟩)

/-- POST /api/announcements/send: resolve the event by id or title, resolve
recipients, dispatch rows with status `sent` (`pending` when `markSent` is
false), and return the `{inserted, requested}` counts. -/
def sendNow (db : DB) (creator : Nat) (event_id : Option Nat)
    (event_title : Option String) (title message : Option String)
    (markSent : Bool) (now : Nat) : DB × Res SendResult :=
  if !present title || !present message then
    (db, .err (.validation "title and message are required"))
  else
    let eventId := resolveEventId db event_id event_title
    let recipients := getRecipientsForEvent db eventId
    let sentPair := insertNotifications db recipients eventId title message
      (if markSent then "sent" else "pending") none creator now
    (sentPair.1, .ok sentPair.2)

/-- The WHERE clause of the scheduler's due query:
`status = 'scheduled' AND scheduled_at IS NOT NULL AND scheduled_at <= NOW()`. -/
def isDue (a : Announcement) (now : Nat) : Bool :=
  a.status = "scheduled" &&
    (match a.scheduled_at with
     | some t => t ≤ now
     | none => false)

/-- The due set one sweep selects. -/
def dueList (db : DB) (now : Nat) : List Announcement :=
  db.announcements.filter (fun a => isDue a now)

/-- Mark an announcement row sent, as the sweep's UPDATE does
(`status = 'sent', sent_at = NOW(), updated_at = NOW()`). -/
def markSentAnn (now : Nat) (a : Announcement) : Announcement :=
  { a with status := "sent", sent_at := some now, updated_at := now }

/-- One iteration of the sweep's `for (const a of due)` loop.  `failDispatch`
says whether the try-block for this announcement throws (recipient
resolution or insert failure); a failure is caught and leaves the state
untouched for that announcement. -/
def sweepStep (now : Nat) (failDispatch : Nat → Bool) (db : DB) (a : Announcement) : DB :=
  if failDispatch a.announcement_id then db
  else
    let recipients := getRecipientsForEvent db a.event_id
    let db1 := (insertNotifications db recipients a.event_id a.title a.message
      "sent" none 0 now).1
    updateAnnRow db1 a.announcement_id (markSentAnn now)

/-- One tick of `startScheduler`'s interval callback: select the due set
once, then process each due announcement independently. -/
def schedulerSweep (db : DB) (now : Nat) (failDispatch : Nat → Bool) : DB :=
  (dueList db now).foldl (sweepStep now failDispatch) db

/-- The WHERE clause of GET /api/announcements:
`type = 'in-app' AND title IS NOT NULL AND message IS NOT NULL`. -/
def isAnnSource (n : Notification) : Bool :=
  n.type = "in-app" && n.title.isSome && n.message.isSome

/-- The GROUP BY key of GET /api/announcements: (event_id, title, message). -/
def notifKey (n : Notification) : Option Nat × Option String × Option String :=
  (n.event_id, n.title, n.message)

/-- One element of the GET /api/announcements response. -/
structure AnnView where
  announcement_id : Nat
  event_id : Option Nat
  title : Option String
  message : Option String
  status : String
  scheduled_at : Option Nat
  created_at : Nat
  sent_at : Option Nat
deriving DecidableEq, Repr

/-- The grouping key carried by a response element. -/
def viewKey (g : AnnView) : Option Nat × Option String × Option String :=
  (g.event_id, g.title, g.message)

/-- The CASE expression of the status_rank aggregate:
`sent` → 2, `scheduled` → 1, anything else → 0. -/
def severityRank (s : String) : Nat :=
  if s = "sent" then 2 else if s = "scheduled" then 1 else 0

/-- The JS mapping of the aggregated rank back to a client status:
`status_rank >= 2 ? "Sent" : status_rank === 1 ? "Scheduled" : "Draft"`. -/
def rankToStatus (r : Nat) : String :=
  if 2 ≤ r then "Sent" else if r = 1 then "Scheduled" else "Draft"

/-- SQL MAX over a nullable column: NULLs are ignored, all-NULL gives NULL. -/
def optMax (a b : Option Nat) : Option Nat :=
  match a, b with
  | none, b => b
  | some x, none => some x
  | some x, some y => some (max x y)

/-- The aggregate row GET /api/announcements computes for one group key,
over the filtered source rows: MIN(notification_id), MAX(status_rank),
MIN(created_at), MAX(scheduled_at), MAX(sent_at); `none` when the group is
empty (such a key never occurs). -/
def aggOf (src : List Notification) (k : Option Nat × Option String × Option String) :
    Option AnnView :=
  match src.filter (fun n => notifKey n = k) with
  | [] => none
  | n :: rest =>
    some
      { announcement_id := (rest.map (fun m => m.notification_id)).foldl min n.notification_id
        event_id := k.1
        title := k.2.1
        message := k.2.2
        status := rankToStatus
          ((rest.map (fun m => severityRank m.status)).foldl max (severityRank n.status))
        scheduled_at := (rest.map (fun m => m.scheduled_at)).foldl optMax n.scheduled_at
        created_at := (rest.map (fun m => m.created_at)).foldl min n.created_at
        sent_at := (rest.map (fun m => m.sent_at)).foldl optMax n.sent_at }

/-- The ordering used by the SQL ORDER BY created_at DESC on the grouped result. -/
def viewLe (a b : AnnView) : Prop := b.created_at ≤ a.created_at

instance : DecidableRel viewLe :=
  fun a b => inferInstanceAs (Decidable (b.created_at ≤ a.created_at))

instance : IsTotal AnnView viewLe :=
  ⟨fun a b => (Nat.le_total b.created_at a.created_at).imp (fun h => h) (fun h => h)⟩

instance : IsTrans AnnView viewLe :=
  ⟨fun _ _ _ hab hbc => Nat.le_trans hbc hab⟩

/-- The rows the GET /api/announcements query ranges over. -/
def srcRows (rows : List Notification) : List Notification :=
  rows.filter isAnnSource

/-- The member rows of the group with key `k`. -/
def membersOf (rows : List Notification) (k : Option Nat × Option String × Option String) :
    List Notification :=
  (srcRows rows).filter (fun n => notifKey n = k)

/-- GET /api/announcements: group the in-app, titled notifications by
(event_id, title, message), aggregate each group, order by the aggregated
created_at descending. -/
def listAnnouncements (rows : List Notification) : List AnnView :=
  List.insertionSort viewLe
    ((((srcRows rows).map notifKey).dedup).filterMap (aggOf (srcRows rows)))

/-- Response of PUT /api/notifications/:id/read. -/
inductive MarkReadRes where
  | notFound
  | forbidden
  | success (notification_id : Nat)
deriving DecidableEq, Repr

/-- PUT /api/notifications/:id/read from routes/notifications.js: 404 when
no row has the id, 403 when the first such row belongs to another user,
otherwise set `is_read = 1` on the rows matching (id, user) — skipping the
UPDATE when the row is already read — and report success. -/
def markRead (db : DB) (notificationId userId : Nat) : DB × MarkReadRes :=
  match db.notifications.find? (fun n => n.notification_id = notificationId) with
  | none => (db, .notFound)
  | some notif =>
    if notif.user_id ≠ userId then (db, .forbidden)
    else if !notif.is_read then
      ({ db with
          notifications := db.notifications.map (fun x =>
            if x.notification_id = notificationId && x.user_id = userId then
              { x with is_read := true }
            else x) },
       .success notificationId)
    else (db, .success notificationId)

/-! ### Example databases used by the concrete counterexamples and witnesses -/

/-- An empty database. -/
def exDbEmpty : DB :=
  { announcements := [], notifications := [], registrations := [], events := [],
    nextAnnouncementId := 1, nextNotificationId := 1, hasCreatedBy := true }

/-- A database with two events and three registrations. -/
def exDb0 : DB :=
  { announcements := [], notifications := [], registrations := [(1, 7), (1, 9), (2, 5)],
    events := [(1, "Gala"), (2, "Expo")], nextAnnouncementId := 1, nextNotificationId := 1,
    hasCreatedBy := true }

/-- An announcement already in the `sent` state. -/
def exAnnSent : Announcement :=
  { announcement_id := 1, event_id := some 1, title := some "T", message := some "M",
    status := "sent", scheduled_at := none, created_by := some 3, created_at := 10,
    updated_at := 10, sent_at := some 10 }

/-- A database holding `exAnnSent`, with one registrant for its event. -/
def exDbSent : DB :=
  { announcements := [exAnnSent], notifications := [], registrations := [(1, 7)],
    events := [(1, "Gala")], nextAnnouncementId := 2, nextNotificationId := 1,
    hasCreatedBy := true }

/-- A draft announcement for event 1. -/
def exAnnDraft : Announcement :=
  { announcement_id := 1, event_id := some 1, title := some "T", message := some "M",
    status := "draft", scheduled_at := none, created_by := some 3, created_at := 10,
    updated_at := 10, sent_at := none }

/-- A database holding `exAnnDraft`, with one registrant for its event. -/
def exDbDraft : DB :=
  { announcements := [exAnnDraft], notifications := [], registrations := [(1, 7)],
    events := [(1, "Gala")], nextAnnouncementId := 2, nextNotificationId := 1,
    hasCreatedBy := true }

/-- A legacy notification row with no corresponding announcement row. -/
def exNotifLegacy : Notification :=
  { notification_id := 5, user_id := 7, event_id := some 1, created_by := none,
    type := "in-app", title := some "T", message := some "M", status := "pending",
    is_read := false, scheduled_at := none, scheduled_by := some 3, attempts := 0,
    error_message := none, created_at := 10, sent_at := none }

/-- A database where id 5 resolves only to the legacy notification row. -/
def exDbLegacy : DB :=
  { announcements := [], notifications := [exNotifLegacy], registrations := [(1, 7)],
    events := [(1, "Gala")], nextAnnouncementId := 1, nextNotificationId := 6,
    hasCreatedBy := true }

/-- A scheduled announcement with id `i` and `scheduled_at = t`. -/
def exAnnSched (i t : Nat) : Announcement :=
  { announcement_id := i, event_id := some 1, title := some "T", message := some "M",
    status := "scheduled", scheduled_at := some t, created_by := some 3, created_at := 1,
    updated_at := 1, sent_at := none }

/-- A database with three due scheduled announcements and one future one. -/
def exDbSched : DB :=
  { announcements := [exAnnSched 1 10, exAnnSched 2 20, exAnnSched 3 30, exAnnSched 4 1000],
    notifications := [], registrations := [(1, 7)], events := [(1, "Gala")],
    nextAnnouncementId := 5, nextNotificationId := 1, hasCreatedBy := true }

/-! ### General helper lemmas -/

theorem lowerStr_toDbStatus (s : Option String) :
    lowerStr (toDbStatus s) = toDbStatus s := by
  unfold toDbStatus
  by_cases h1 : lowerStr (s.getD "") = "draft" ∨ lowerStr (s.getD "") = "pending"
  · simp only [h1, if_true]
    decide
  · by_cases h2 : lowerStr (s.getD "") = "scheduled"
    · simp only [h1, h2, if_false, if_true]
      decide
    · by_cases h3 : lowerStr (s.getD "") = "sent"
      · simp only [h1, h2, h3, if_false, if_true]
        decide
      · simp only [h1, h2, h3, if_false]
        decide

theorem toDbStatus_cases (s : Option String) :
    toDbStatus s = "draft" ∨ toDbStatus s = "scheduled" ∨ toDbStatus s = "sent" := by
  unfold toDbStatus
  by_cases h1 : lowerStr (s.getD "") = "draft" ∨ lowerStr (s.getD "") = "pending"
  · simp [h1]
  · by_cases h2 : lowerStr (s.getD "") = "scheduled"
    · simp [h1, h2]
    · by_cases h3 : lowerStr (s.getD "") = "sent"
      · simp [h1, h2, h3]
      · simp [h1, h2, h3]

theorem find?_map_of_pred {α : Type} (g : α → α) (p : α → Bool)
    (h : ∀ x, p (g x) = p x) :
    ∀ l : List α, (l.map g).find? p = (l.find? p).map g := by
  intro l
  induction l with
  | nil => rfl
  | cons x xs ih =>
    simp only [List.map_cons, List.find?_cons, h x]
    cases hp : p x
    · exact ih
    · rfl

theorem updateAnnRow_notifications (db : DB) (id : Nat) (f : Announcement → Announcement) :
    (updateAnnRow db id f).notifications = db.notifications := rfl

theorem updateAnnRow_registrations (db : DB) (id : Nat) (f : Announcement → Announcement) :
    (updateAnnRow db id f).registrations = db.registrations := rfl

theorem annById_updateAnnRow (db : DB) (id j : Nat) (f : Announcement → Announcement)
    (hf : ∀ a, (f a).announcement_id = a.announcement_id) :
    annById (updateAnnRow db id f) j =
      (annById db j).map (fun a => if a.announcement_id = id then f a else a) := by
  unfold annById updateAnnRow
  apply find?_map_of_pred
  intro x
  by_cases hx : x.announcement_id = id
  · simp [hx, hf x]
  · simp [hx]

theorem insertNotifications_announcements (db : DB) (recipients : List Nat)
    (event_id : Option Nat) (title message : Option String) (status : String)
    (scheduled_at : Option Nat) (creator now : Nat) :
    ((insertNotifications db recipients event_id title message status scheduled_at
        creator now).1).announcements = db.announcements := by
  unfold insertNotifications
  cases recipients <;> rfl

theorem insertNotifications_registrations (db : DB) (recipients : List Nat)
    (event_id : Option Nat) (title message : Option String) (status : String)
    (scheduled_at : Option Nat) (creator now : Nat) :
    ((insertNotifications db recipients event_id title message status scheduled_at
        creator now).1).registrations = db.registrations := by
  unfold insertNotifications
  cases recipients <;> rfl

theorem getRecipientsForEvent_congr (db1 db2 : DB) (e : Option Nat)
    (h : db1.registrations = db2.registrations) :
    getRecipientsForEvent db1 e = getRecipientsForEvent db2 e := by
  unfold getRecipientsForEvent
  rw [h]





/-! ### C10: status normalization is total and create never rejects a status -/

/-- C10: status normalization on announcement create/update is total and
never rejects invalid input: `toDbStatus` always returns one of
draft/scheduled/sent; any value that is not case-insensitively draft,
pending, scheduled or sent is coerced to `draft`; and `createAnnouncement`
with a valid title and message succeeds for every status value. -/
theorem toDbStatus_total_and_create_accepts_any_status (s : Option String) :
    (toDbStatus s = "draft" ∨ toDbStatus s = "scheduled" ∨ toDbStatus s = "sent")
    ∧ (lowerStr (s.getD "") ≠ "draft" → lowerStr (s.getD "") ≠ "pending" →
        lowerStr (s.getD "") ≠ "scheduled" → lowerStr (s.getD "") ≠ "sent" →
        toDbStatus s = "draft")
    ∧ (∀ (db : DB) (creator : Nat) (event_id : Option Nat) (event_title : Option String)
        (t m : String) (scheduled_at : Option Nat) (markSent : Bool) (now : Nat),
        t ≠ "" → m ≠ "" →
        ∃ r, (createAnnouncement db creator event_id event_title (some t) (some m) s
          scheduled_at markSent now).2 = Res.ok r) := by
  refine ⟨toDbStatus_cases s, ?_, ?_⟩
  · intro h1 h2 h3 h4
    unfold toDbStatus
    simp [h1, h2, h3, h4]
  · intro db creator event_id event_title t m scheduled_at markSent now ht hm
    have hguard : (!present (some t) || !present (some m)) = false := by
      simp [present, ht, hm]
    unfold createAnnouncement
    simp only [hguard, Bool.false_eq_true, if_false]
    split
    · exact ⟨_, rfl⟩
    · exact ⟨_, rfl⟩

/-- Witness for C10 at a concrete unrecognized status value. -/
theorem toDbStatus_total_and_create_accepts_any_status_witness :
    toDbStatus (some "Whatever") = "draft"
    ∧ ∃ r, (createAnnouncement exDb0 3 none none (some "T") (some "M") (some "Whatever")
        none false 5).2 = Res.ok r :=
  ⟨(toDbStatus_total_and_create_accepts_any_status (some "Whatever")).2.1
      (by decide) (by decide) (by decide) (by decide),
   (toDbStatus_total_and_create_accepts_any_status (some "Whatever")).2.2
      exDb0 3 none none "T" "M" none false 5 (by decide) (by decide)⟩

/-! ### C7: empty recipient set dispatches to nobody, successfully -/

/-- C7: for every dispatch whose event reference is absent, resolves to no
event, or resolves to an event with zero registrations, the recipient set
is empty, no notification rows are inserted, and `sendNow` succeeds with
`{inserted: 0, requested: 0}`. -/
theorem empty_recipient_dispatch_succeeds :
    (∀ db : DB, getRecipientsForEvent db none = [])
    ∧ (∀ (db : DB) (e : Nat), (∀ p ∈ db.registrations, p.1 ≠ e) →
        getRecipientsForEvent db (some e) = [])
    ∧ (∀ (db : DB) (event_id : Option Nat) (title message : Option String)
        (status : String) (scheduled_at : Option Nat) (creator now : Nat),
        insertNotifications db [] event_id title message status scheduled_at creator now
          = (db, ⟨0, 0⟩))
    ∧ (∀ (db : DB) (creator : Nat) (event_id : Option Nat) (event_title : Option String)
        (t m : String) (markSent : Bool) (now : Nat), t ≠ "" → m ≠ "" →
        getRecipientsForEvent db (resolveEventId db event_id event_title) = [] →
        sendNow db creator event_id event_title (some t) (some m) markSent now
          = (db, Res.ok ⟨0, 0⟩)) := by
  refine ⟨fun db => rfl, ?_, fun db event_id title message status scheduled_at creator now => rfl, ?_⟩
  · intro db e h
    unfold getRecipientsForEvent
    by_cases he : e = 0
    · simp [he]
    · have : db.registrations.filter (fun p => p.1 = e) = [] := by
        rw [List.filter_eq_nil_iff]
        intro p hp
        simp [h p hp]
      simp [he, this]
  · intro db creator event_id event_title t m markSent now ht hm hrec
    have hguard : (!present (some t) || !present (some m)) = false := by
      simp [present, ht, hm]
    unfold sendNow
    simp only [hguard, Bool.false_eq_true, if_false]
    rw [hrec]
    rfl

/-- Witness for C7: an unregistered event id and an unknown event title. -/
theorem empty_recipient_dispatch_succeeds_witness :
    getRecipientsForEvent exDb0 (some 3) = []
    ∧ sendNow exDb0 4 none (some "Nah") (some "T") (some "M") true 9
        = (exDb0, Res.ok ⟨0, 0⟩) :=
  ⟨empty_recipient_dispatch_succeeds.2.1 exDb0 3 (by decide),
   empty_recipient_dispatch_succeeds.2.2.2 exDb0 4 none (some "Nah") "T" "M" true 9
      (by decide) (by decide) (by decide)⟩

/-! ### C1: create with status `scheduled` and no `scheduled_at` -/

/-- C1 counterexample: creating an announcement with requested status
`Scheduled` and an absent `scheduled_at` does NOT fail with a
ValidationError — it succeeds and inserts a row (with status `scheduled`
and NULL `scheduled_at`), contradicting the claim. -/
theorem create_scheduled_without_date_not_rejected_cx :
    (createAnnouncement exDbEmpty 9 none none (some "T") (some "M") (some "Scheduled")
        none false 100).2 = Res.ok ⟨1, none⟩
    ∧ ((createAnnouncement exDbEmpty 9 none none (some "T") (some "M") (some "Scheduled")
        none false 100).1).announcements.length = 1 := by
  decide

/-- C1 amended: a createAnnouncement request whose status normalizes to
`scheduled`, with `scheduled_at` absent and `markSent` unset, succeeds
(no ValidationError) and appends exactly one announcement row with status
`scheduled` and no `scheduled_at`; no notification row is created. -/
theorem create_scheduled_without_date_inserts_row (db : DB) (creator : Nat)
    (event_id : Option Nat) (event_title : Option String) (t m : String)
    (st : Option String) (now : Nat) (ht : t ≠ "") (hm : m ≠ "")
    (hst : toDbStatus st = "scheduled") :
    (createAnnouncement db creator event_id event_title (some t) (some m) st none
        false now).2 = Res.ok ⟨db.nextAnnouncementId, none⟩
    ∧ (createAnnouncement db creator event_id event_title (some t) (some m) st none
        false now).1.announcements = db.announcements ++
        [{ announcement_id := db.nextAnnouncementId
           event_id := resolveEventId db event_id none
           title := some t
           message := some m
           status := "scheduled"
           scheduled_at := none
           created_by := some creator
           created_at := now
           updated_at := now
           sent_at := none }]
    ∧ (createAnnouncement db creator event_id event_title (some t) (some m) st none
        false now).1.notifications = db.notifications := by
  have hguard : (!present (some t) || !present (some m)) = false := by
    simp [present, ht, hm]
  have hcond : (decide (toDbStatus st = "sent") || false) = false := by
    rw [hst]
    decide
  unfold createAnnouncement
  simp only [hguard, Bool.false_eq_true, if_false, hst, hcond]
  exact ⟨rfl, rfl, rfl⟩

/-- Witness for the amended C1 at a concrete request. -/
theorem create_scheduled_without_date_inserts_row_witness :
    (createAnnouncement exDb0 3 (some 1) none (some "T") (some "M") (some "Scheduled")
        none false 7).2 = Res.ok ⟨1, none⟩ :=
  (create_scheduled_without_date_inserts_row exDb0 3 (some 1) none "T" "M"
    (some "Scheduled") 7 (by decide) (by decide) (by decide)).1

/-! ### C2: transitions out of `sent` -/

/-- C2 counterexample: PATCHing a `sent` announcement with status `Draft`
is neither rejected nor a no-op — the call succeeds and the stored status
becomes `draft`. -/
theorem sent_status_reverted_by_update_cx :
    (updateAnnouncement exDbSent 1 3 none none (some "Draft") none none 50).2
        = Res.ok ⟨none, none⟩
    ∧ annById (updateAnnouncement exDbSent 1 3 none none (some "Draft") none none 50).1 1
        = some { exAnnSent with status := "draft", updated_at := 50 } := by
  decide

/-- C2 amended: an updateAnnouncement call on a `sent` announcement
requesting a status that does not normalize to `sent` is accepted and
updates the stored status to the requested one (the transition out of
`sent` is permitted); no fan-out occurs and no notification row changes. -/
theorem update_on_sent_applies_requested_status (db : DB) (id updater : Nat)
    (a : Announcement) (s : String) (now : Nat)
    (ha : annById db id = some a) (hsent : a.status = "sent")
    (hs : toDbStatus (some s) ≠ "sent") :
    (updateAnnouncement db id updater none none (some s) none none now).2
        = Res.ok ⟨none, none⟩
    ∧ annById (updateAnnouncement db id updater none none (some s) none none now).1 id
        = some { a with status := toDbStatus (some s), updated_at := now }
    ∧ (updateAnnouncement db id updater none none (some s) none none now).1.notifications
        = db.notifications := by
  have hfind : db.announcements.find? (fun x => x.announcement_id = id) = some a := ha
  have hid : a.announcement_id = id := by
    have := List.find?_some hfind
    exact of_decide_eq_true this
  unfold updateAnnouncement
  rw [hfind]
  dsimp only
  split
  next h =>
    exfalso
    have h1 : lowerStr (toDbStatus (some s)) = "sent" := by
      have h2 := (Bool.and_eq_true _ _).mp h
      exact of_decide_eq_true h2.1
    rw [lowerStr_toDbStatus] at h1
    exact hs h1
  next h =>
    refine ⟨rfl, ?_, rfl⟩
    rw [annById_updateAnnRow]
    · rw [ha]
      simp only [Option.map_some']
      rw [if_pos hid]
    · intro x
      rfl

/-- Witness for the amended C2 at a concrete database. -/
theorem update_on_sent_applies_requested_status_witness :
    (updateAnnouncement exDbSent 1 3 none none (some "Scheduled") none none 50).2
        = Res.ok ⟨none, none⟩ :=
  (update_on_sent_applies_requested_status exDbSent 1 3 exAnnSent "Scheduled" 50
    (by decide) (by decide) (by decide)).1

/-! ### Notification dispatch view -/

/-- The delivery-relevant projection of a notification row: everything but
the auto-increment id and the bookkeeping columns that do not identify a
dispatch. -/
structure NotifView where
  user_id : Nat
  event_id : Option Nat
  title : Option String
  message : Option String
  status : String
  is_read : Bool
  sent_at : Option Nat
deriving DecidableEq, Repr

/-- Project a notification row to its dispatch view. -/
def notifView (n : Notification) : NotifView :=
  { user_id := n.user_id, event_id := n.event_id, title := n.title,
    message := n.message, status := n.status, is_read := n.is_read,
    sent_at := n.sent_at }

/-- The dispatch view of the row a `sent` fan-out creates for recipient `r`. -/
def sentNotifView (event_id : Option Nat) (title message : Option String)
    (now : Nat) (r : Nat) : NotifView :=
  { user_id := r, event_id := event_id, title := title, message := message,
    status := "sent", is_read := false, sent_at := some now }

theorem mkNotifRows_sent_view (hasCreatedBy : Bool) (event_id : Option Nat)
    (title message : Option String) (scheduled_at : Option Nat) (creator now : Nat) :
    ∀ (recipients : List Nat) (startId : Nat),
      (mkNotifRows startId hasCreatedBy event_id title message "sent" scheduled_at
          creator now recipients).map notifView
        = recipients.map (sentNotifView event_id title message now) := by
  intro recipients
  induction recipients with
  | nil => intro startId; rfl
  | cons r rest ih =>
    intro startId
    simp only [mkNotifRows, List.map_cons, ih]
    have h1 : lowerStr "sent" = "sent" := by decide
    have h2 : ¬(lowerStr "sent" = "draft") := by decide
    simp [notifView, sentNotifView, h1, h2]

theorem insertNotifications_sent_view (db : DB) (recipients : List Nat)
    (event_id : Option Nat) (title message : Option String)
    (scheduled_at : Option Nat) (creator now : Nat) :
    ((insertNotifications db recipients event_id title message "sent" scheduled_at
        creator now).1).notifications.map notifView
      = db.notifications.map notifView
        ++ recipients.map (sentNotifView event_id title message now) := by
  unfold insertNotifications
  cases recipients with
  | nil => simp
  | cons r rest =>
    simp only [List.isEmpty_cons, Bool.false_eq_true, if_false, List.map_append]
    rw [mkNotifRows_sent_view]

theorem insertNotifications_count (db : DB) (recipients : List Nat)
    (event_id : Option Nat) (title message : Option String) (status : String)
    (scheduled_at : Option Nat) (creator now : Nat) :
    (insertNotifications db recipients event_id title message status scheduled_at
        creator now).2 = ⟨recipients.length, recipients.length⟩ := by
  unfold insertNotifications
  cases recipients <;> rfl

/-! ### C4: no dedup on re-dispatch -/

/-- C4 counterexample: transitioning announcement 1 to `sent`, back to
`draft`, then to `sent` again fans out twice and leaves recipient 7 with
two notification rows for the same logical announcement — the claimed
at-most-one-row-per-(recipient, announcement) invariant fails. -/
theorem redispatch_duplicates_notification_rows_cx :
    (((updateAnnouncement
        (updateAnnouncement
          (updateAnnouncement exDbDraft 1 3 none none (some "Sent") none none 10).1
          1 3 none none (some "Draft") none none 20).1
        1 3 none none (some "Sent") none none 30).1).notifications.filter
      (fun n => n.user_id = 7 && n.event_id = some 1 && n.title = some "T"
        && n.message = some "M" && n.status = "sent")).length = 2 := by
  decide

/-- C4 amended: each dispatch unconditionally inserts one fresh notification
row per resolved recipient — there is no (recipient, announcement)
deduplication, so re-dispatching the same announcement gives a recipient who
already has a row from the earlier dispatch an additional, duplicate row. -/
theorem dispatch_appends_row_per_recipient_unconditionally (db : DB)
    (recipients : List Nat) (event_id : Option Nat) (title message : Option String)
    (scheduled_at : Option Nat) (creator now : Nat) (r : Nat) (hr : r ∈ recipients) :
    ((insertNotifications db recipients event_id title message "sent" scheduled_at
        creator now).1).notifications.map notifView
      = db.notifications.map notifView
        ++ recipients.map (sentNotifView event_id title message now)
    ∧ (((insertNotifications db recipients event_id title message "sent" scheduled_at
        creator now).1).notifications.map notifView).count
          (sentNotifView event_id title message now r)
      = (db.notifications.map notifView).count
          (sentNotifView event_id title message now r) + recipients.count r := by
  have hview := insertNotifications_sent_view db recipients event_id title message
    scheduled_at creator now
  refine ⟨hview, ?_⟩
  rw [hview, List.count_append]
  congr 1
  apply List.count_map_of_injective
  intro a b hab
  have : (sentNotifView event_id title message now a).user_id
      = (sentNotifView event_id title message now b).user_id := by rw [hab]
  exact this

/-- Witness for the amended C4: recipient 7 already has a row from a first
dispatch; a second identical dispatch leaves it with two. -/
theorem dispatch_appends_row_per_recipient_unconditionally_witness :
    (((insertNotifications
        (insertNotifications exDbDraft [7] (some 1) (some "T") (some "M") "sent" none 3 10).1
        [7] (some 1) (some "T") (some "M") "sent" none 3 30).1).notifications.map
          notifView).count (sentNotifView (some 1) (some "T") (some "M") 30 7)
      = ((((insertNotifications exDbDraft [7] (some 1) (some "T") (some "M") "sent" none
          3 10).1).notifications.map notifView).count
            (sentNotifView (some 1) (some "T") (some "M") 30 7)) + 1 :=
  (dispatch_appends_row_per_recipient_unconditionally
    (insertNotifications exDbDraft [7] (some 1) (some "T") (some "M") "sent" none 3 10).1
    [7] (some 1) (some "T") (some "M") none 3 30 7 (by decide)).2

/-! ### C3: dispatch-on-sent and the legacy-notification path -/

/-- C3 counterexample: id 5 resolves only to a legacy notification whose
status is `pending`; updating it with status `Sent` succeeds and
materializes an announcement row, but runs NO fan-out — the notifications
table is unchanged even though event 1 has recipient 7 — contradicting the
claim that fan-out runs exactly once on this path. -/
theorem legacy_update_to_sent_skips_fanout_cx :
    (updateAnnouncement exDbLegacy 5 3 none none (some "Sent") none none 100).2
        = Res.ok ⟨some 1, none⟩
    ∧ ((updateAnnouncement exDbLegacy 5 3 none none (some "Sent") none none 100).1).notifications
        = exDbLegacy.notifications
    ∧ getRecipientsForEvent exDbLegacy (some 1) = [7] := by
  decide

/-- C3 amended: on an updateAnnouncement call with a requested status,
(i) if the id resolves to an existing announcement row whose stored status
is not `sent` and the requested status normalizes to `sent`, fan-out runs
exactly once — one notification row per recipient of the row's event is
appended and the reported counts equal the recipient count;
(ii) if the id resolves only to a legacy notification row, the call
materializes a new announcement row seeded from it and performs no fan-out;
(iii) if the id resolves to neither, the call fails with NotFoundError. -/
theorem update_dispatch_cases (db : DB) (id updater : Nat)
    (title message : Option String) (s : String)
    (scheduled_at : Option (Option Nat)) (newEventId : Option (Option Nat))
    (now : Nat) :
    (∀ a, annById db id = some a → toDbStatus (some s) = "sent" →
      lowerStr a.status ≠ "sent" →
      ((updateAnnouncement db id updater title message (some s) scheduled_at
          newEventId now).1).notifications.map notifView
        = db.notifications.map notifView
          ++ (getRecipientsForEvent db a.event_id).map
              (sentNotifView a.event_id
                (match title with | some t => some t | none => a.title)
                (match message with | some m => some m | none => a.message) now)
      ∧ (updateAnnouncement db id updater title message (some s) scheduled_at
          newEventId now).2
        = Res.ok ⟨none, some ⟨(getRecipientsForEvent db a.event_id).length,
            (getRecipientsForEvent db a.event_id).length⟩⟩)
    ∧ (annById db id = none →
       ∀ n, db.notifications.find? (fun x => x.notification_id = id) = some n →
      ((updateAnnouncement db id updater title message (some s) scheduled_at
          newEventId now).1).notifications = db.notifications
      ∧ ((updateAnnouncement db id updater title message (some s) scheduled_at
          newEventId now).1).announcements
        = db.announcements ++
          [{ announcement_id := db.nextAnnouncementId
             event_id := match newEventId with | some (some e) => some e | _ => n.event_id
             title := match title with | some t => some t | none => n.title
             message := match message with | some m => some m | none => n.message
             status := toDbStatus (some s)
             scheduled_at := match scheduled_at with | some (some t) => some t | _ => none
             created_by := some updater
             created_at := now
             updated_at := now
             sent_at := if toDbStatus (some s) = "sent" then some now else none }]
      ∧ (updateAnnouncement db id updater title message (some s) scheduled_at
          newEventId now).2 = Res.ok ⟨some db.nextAnnouncementId, none⟩)
    ∧ (annById db id = none →
       db.notifications.find? (fun x => x.notification_id = id) = none →
      updateAnnouncement db id updater title message (some s) scheduled_at
          newEventId now = (db, Res.err (.notFound "Announcement not found"))) := by
  refine ⟨?_, ?_, ?_⟩
  · intro a ha hsent hprev
    have hfind : db.announcements.find? (fun x => x.announcement_id = id) = some a := ha
    unfold updateAnnouncement
    rw [hfind]
    dsimp only
    split
    next h =>
      constructor
      · rw [updateAnnRow_notifications, insertNotifications_sent_view]
        rw [getRecipientsForEvent_congr (updateAnnRow db id _) db a.event_id rfl]
        rfl
      · rw [insertNotifications_count]
        rw [getRecipientsForEvent_congr (updateAnnRow db id _) db a.event_id rfl]
    next h =>
      exfalso
      apply h
      rw [hsent]
      have h1 : decide (lowerStr "sent" = "sent") = true := by decide
      have h2 : decide (lowerStr a.status ≠ "sent") = true := decide_eq_true hprev
      rw [h1, h2]
      rfl
  · intro hnone n hn
    have hfind : db.announcements.find? (fun x => x.announcement_id = id) = none := hnone
    unfold updateAnnouncement
    rw [hfind, hn]
    exact ⟨rfl, rfl, rfl⟩
  · intro hnone hn
    have hfind : db.announcements.find? (fun x => x.announcement_id = id) = none := hnone
    unfold updateAnnouncement
    rw [hfind, hn]

/-- Witness for the amended C3: the legacy path on a concrete database. -/
theorem update_dispatch_cases_witness :
    ((updateAnnouncement exDbLegacy 5 3 none none (some "Sent") none none 100).1).notifications
        = exDbLegacy.notifications
    ∧ (updateAnnouncement exDbLegacy 5 3 none none (some "Sent") none none 100).2
        = Res.ok ⟨some 1, none⟩ :=
  have h := (update_dispatch_cases exDbLegacy 5 3 none none "Sent" none none 100).2.1
    (by decide) exNotifLegacy (by decide)
  ⟨h.1, h.2.2⟩

/-! ### Scheduler sweep lemmas -/

/-- The ids of the due announcements a sweep actually processes (those whose
dispatch does not fail). -/
def processedIds (F : Nat → Bool) (L : List Announcement) : List Nat :=
  (L.filter (fun a => !F a.announcement_id)).map (fun a => a.announcement_id)

theorem processedIds_cons_pos (F : Nat → Bool) (a : Announcement)
    (L : List Announcement) (h : F a.announcement_id = true) :
    processedIds F (a :: L) = processedIds F L := by
  unfold processedIds
  rw [List.filter_cons]
  simp [h]

theorem processedIds_cons_neg (F : Nat → Bool) (a : Announcement)
    (L : List Announcement) (h : F a.announcement_id = false) :
    processedIds F (a :: L) = a.announcement_id :: processedIds F L := by
  unfold processedIds
  rw [List.filter_cons]
  simp [h]

theorem markSentAnn_idem (now : Nat) (x : Announcement) :
    markSentAnn now (markSentAnn now x) = markSentAnn now x := rfl

theorem markSentAnn_id (now : Nat) (x : Announcement) :
    (markSentAnn now x).announcement_id = x.announcement_id := rfl

theorem sweepStep_registrations (now : Nat) (F : Nat → Bool) (db : DB)
    (a : Announcement) : (sweepStep now F db a).registrations = db.registrations := by
  unfold sweepStep
  split
  · rfl
  · rw [updateAnnRow_registrations, insertNotifications_registrations]

theorem updateAnnRow_announcements (db : DB) (id : Nat) (f : Announcement → Announcement) :
    (updateAnnRow db id f).announcements =
      db.announcements.map (fun a => if a.announcement_id = id then f a else a) := rfl

theorem sweepStep_announcements (now : Nat) (F : Nat → Bool) (db : DB)
    (a : Announcement) :
    (sweepStep now F db a).announcements =
      if F a.announcement_id then db.announcements
      else db.announcements.map (fun x =>
        if x.announcement_id = a.announcement_id then markSentAnn now x else x) := by
  unfold sweepStep
  split
  next h => rfl
  next h =>
    dsimp only
    rw [updateAnnRow_announcements, insertNotifications_announcements]

theorem foldl_sweepStep_announcements (now : Nat) (F : Nat → Bool) :
    ∀ (L : List Announcement) (db : DB),
      (L.foldl (sweepStep now F) db).announcements =
        db.announcements.map (fun x =>
          if x.announcement_id ∈ processedIds F L then markSentAnn now x else x) := by
  intro L
  induction L with
  | nil =>
    intro db
    simp [processedIds]
  | cons a L ih =>
    intro db
    rw [List.foldl_cons, ih, sweepStep_announcements]
    by_cases hF : F a.announcement_id
    · rw [if_pos hF, processedIds_cons_pos F a L hF]
    · rw [if_neg hF, processedIds_cons_neg F a L (by simp [hF]), List.map_map]
      apply List.map_congr_left
      intro x hx
      simp only [Function.comp_apply]
      by_cases hx1 : x.announcement_id = a.announcement_id
      · rw [if_pos hx1]
        have hr : x.announcement_id ∈ a.announcement_id :: processedIds F L := by
          rw [hx1]
          exact List.mem_cons_self _ _
        rw [if_pos hr]
        by_cases hm : (markSentAnn now x).announcement_id ∈ processedIds F L
        · rw [if_pos hm, markSentAnn_idem]
        · rw [if_neg hm]
      · rw [if_neg hx1]
        by_cases hm : x.announcement_id ∈ processedIds F L
        · have hr : x.announcement_id ∈ a.announcement_id :: processedIds F L :=
            List.mem_cons_of_mem _ hm
          rw [if_pos hm, if_pos hr]
        · have hr : ¬x.announcement_id ∈ a.announcement_id :: processedIds F L := by
            simp [hx1, hm]
          rw [if_neg hm, if_neg hr]

theorem foldl_sweepStep_notifications (now : Nat) (F : Nat → Bool) :
    ∀ (L : List Announcement) (db : DB),
      (L.foldl (sweepStep now F) db).notifications.map notifView =
        db.notifications.map notifView ++
          (L.filter (fun a => !F a.announcement_id)).flatMap (fun a =>
            (getRecipientsForEvent db a.event_id).map
              (sentNotifView a.event_id a.title a.message now)) := by
  intro L
  induction L with
  | nil =>
    intro db
    simp
  | cons a L ih =>
    intro db
    rw [List.foldl_cons, ih]
    have hrec : ∀ e, getRecipientsForEvent (sweepStep now F db a) e
        = getRecipientsForEvent db e :=
      fun e => getRecipientsForEvent_congr _ _ e (sweepStep_registrations now F db a)
    simp only [hrec]
    by_cases hF : F a.announcement_id
    · have hstep : sweepStep now F db a = db := by
        unfold sweepStep
        rw [if_pos hF]
      rw [hstep, List.filter_cons]
      simp [hF]
    · have hnot : (sweepStep now F db a).notifications.map notifView
          = db.notifications.map notifView
            ++ (getRecipientsForEvent db a.event_id).map
                (sentNotifView a.event_id a.title a.message now) := by
        unfold sweepStep
        rw [if_neg hF, updateAnnRow_notifications, insertNotifications_sent_view]
      rw [hnot, List.filter_cons]
      simp only [hF, Bool.not_false, if_pos, List.flatMap_cons, List.append_assoc]

theorem find?_id_eq_of_nodup (l : List Announcement)
    (h : (l.map (fun x => x.announcement_id)).Nodup) (a : Announcement) (ha : a ∈ l) :
    l.find? (fun x => x.announcement_id = a.announcement_id) = some a := by
  induction l with
  | nil => cases ha
  | cons b l ih =>
    rw [List.map_cons, List.nodup_cons] at h
    rcases List.mem_cons.mp ha with h1 | h1
    · subst h1
      simp [List.find?_cons]
    · have hb : ¬(b.announcement_id = a.announcement_id) := by
        intro he
        exact h.1 (he ▸ List.mem_map.mpr ⟨a, h1, rfl⟩)
      have hstep : List.find? (fun x => decide (x.announcement_id = a.announcement_id)) (b :: l)
          = List.find? (fun x => decide (x.announcement_id = a.announcement_id)) l := by
        simp [List.find?_cons, hb]
      rw [hstep]
      exact ih h.2 h1

theorem mem_processedIds_iff (db : DB) (now : Nat) (F : Nat → Bool)
    (h : (db.announcements.map (fun x => x.announcement_id)).Nodup)
    (a : Announcement) (ha : a ∈ db.announcements) :
    (a.announcement_id ∈ processedIds F (dueList db now)) ↔
      (isDue a now = true ∧ F a.announcement_id = false) := by
  unfold processedIds dueList
  constructor
  · intro hm
    rcases List.mem_map.mp hm with ⟨b, hb, hid⟩
    have hb1 := List.mem_filter.mp hb
    have hb2 := List.mem_filter.mp hb1.1
    have hba : b = a :=
      List.inj_on_of_nodup_map h hb2.1 ha hid
    subst hba
    refine ⟨hb2.2, ?_⟩
    have := hb1.2
    simp only [Bool.not_eq_true'] at this
    exact this
  · intro hc
    exact List.mem_map.mpr ⟨a,
      List.mem_filter.mpr ⟨List.mem_filter.mpr ⟨ha, hc.1⟩, by simp [hc.2]⟩, rfl⟩

theorem annById_schedulerSweep (db : DB) (now : Nat) (F : Nat → Bool)
    (h : (db.announcements.map (fun x => x.announcement_id)).Nodup)
    (a : Announcement) (ha : a ∈ db.announcements) :
    annById (schedulerSweep db now F) a.announcement_id =
      some (if a.announcement_id ∈ processedIds F (dueList db now) then
        markSentAnn now a else a) := by
  unfold schedulerSweep annById
  rw [foldl_sweepStep_announcements]
  rw [find?_map_of_pred _ _ ?hpred]
  case hpred =>
    intro x
    by_cases hx : x.announcement_id ∈ processedIds F (dueList db now)
    · simp [hx, markSentAnn_id]
    · simp [hx]
  rw [find?_id_eq_of_nodup _ h a ha]
  rfl

/-! ### C5: the sweep promotes exactly the due announcements -/

/-- C5: one scheduler sweep (with no dispatch failures) transitions to
`sent` exactly those announcements whose status is `scheduled` with a
non-null `scheduled_at <= now` — setting their `sent_at` and appending one
`sent` notification row per resolved recipient of each due announcement —
and leaves every other announcement (in particular a `scheduled` one whose
`scheduled_at` is in the future) unchanged. -/
theorem scheduler_sweep_sends_exactly_due (db : DB) (now : Nat)
    (h : (db.announcements.map (fun x => x.announcement_id)).Nodup) :
    (∀ a ∈ db.announcements,
        annById (schedulerSweep db now (fun i => false)) a.announcement_id =
          some (if isDue a now then markSentAnn now a else a))
    ∧ (schedulerSweep db now (fun i => false)).notifications.map notifView
        = db.notifications.map notifView
          ++ (dueList db now).flatMap (fun a =>
              (getRecipientsForEvent db a.event_id).map
                (sentNotifView a.event_id a.title a.message now)) := by
  constructor
  · intro a ha
    rw [annById_schedulerSweep db now _ h a ha]
    by_cases hd : isDue a now = true
    · rw [if_pos ((mem_processedIds_iff db now _ h a ha).mpr ⟨hd, rfl⟩), if_pos hd]
    · rw [if_neg (fun hm => hd ((mem_processedIds_iff db now _ h a ha).mp hm).1),
        if_neg hd]
  · unfold schedulerSweep
    rw [foldl_sweepStep_notifications]
    congr 1
    congr 1
    apply List.filter_eq_self.mpr
    intro a _
    rfl

/-- Witness for C5: three due announcements are sent, the future one is
left `scheduled` and untouched. -/
theorem scheduler_sweep_sends_exactly_due_witness :
    annById (schedulerSweep exDbSched 100 (fun i => false)) 1
        = some (markSentAnn 100 (exAnnSched 1 10))
    ∧ annById (schedulerSweep exDbSched 100 (fun i => false)) 4
        = some (exAnnSched 4 1000) :=
  have h := scheduler_sweep_sends_exactly_due exDbSched 100 (by decide)
  ⟨by
      have h1 := h.1 (exAnnSched 1 10) (by decide)
      rw [if_pos (by decide)] at h1
      exact h1,
   by
      have h4 := h.1 (exAnnSched 4 1000) (by decide)
      rw [if_neg (by decide)] at h4
      exact h4⟩

/-! ### C6: a dispatch failure is isolated to its announcement -/

/-- C6: within one sweep, a dispatch failure for one due announcement does
not prevent any other due announcement from being processed, and leaves the
failed announcement unchanged in status `scheduled`, so it is selected
again by the due query of any later sweep. -/
theorem sweep_failure_isolated_and_retried (db : DB) (now : Nat) (F : Nat → Bool)
    (h : (db.announcements.map (fun x => x.announcement_id)).Nodup) :
    ∀ a ∈ db.announcements, isDue a now = true →
      (F a.announcement_id = true →
        annById (schedulerSweep db now F) a.announcement_id = some a
        ∧ a.status = "scheduled"
        ∧ ∀ now2, now ≤ now2 → a ∈ dueList (schedulerSweep db now F) now2)
      ∧ (F a.announcement_id = false →
        annById (schedulerSweep db now F) a.announcement_id
          = some (markSentAnn now a)) := by
  intro a ha hdue
  constructor
  · intro hF
    have hnm : ¬(a.announcement_id ∈ processedIds F (dueList db now)) := by
      intro hm
      have hcontra := ((mem_processedIds_iff db now F h a ha).mp hm).2
      rw [hF] at hcontra
      cases hcontra
    refine ⟨?_, ?_, ?_⟩
    · rw [annById_schedulerSweep db now F h a ha, if_neg hnm]
    · have hd := hdue
      unfold isDue at hd
      rcases (Bool.and_eq_true _ _).mp hd with ⟨h1, _⟩
      exact of_decide_eq_true h1
    · intro now2 hnow2
      unfold dueList
      apply List.mem_filter.mpr
      refine ⟨?_, ?_⟩
      · unfold schedulerSweep
        rw [foldl_sweepStep_announcements]
        exact List.mem_map.mpr ⟨a, ha, by rw [if_neg hnm]⟩
      · have hd := hdue
        unfold isDue at hd ⊢
        rcases (Bool.and_eq_true _ _).mp hd with ⟨h1, h2⟩
        refine (Bool.and_eq_true _ _).mpr ⟨h1, ?_⟩
        cases hsa : a.scheduled_at with
        | none =>
          rw [hsa] at h2
          cases h2
        | some t =>
          rw [hsa] at h2
          exact decide_eq_true (Nat.le_trans (of_decide_eq_true h2) hnow2)
  · intro hF
    have hm : a.announcement_id ∈ processedIds F (dueList db now) :=
      (mem_processedIds_iff db now F h a ha).mpr ⟨hdue, hF⟩
    rw [annById_schedulerSweep db now F h a ha, if_pos hm]

/-- Witness for C6: with announcement 2's dispatch failing, announcement 2
stays `scheduled` and due, while announcement 1 is still sent. -/
theorem sweep_failure_isolated_and_retried_witness :
    annById (schedulerSweep exDbSched 100 (fun i => decide (i = 2))) 2
        = some (exAnnSched 2 20)
    ∧ annById (schedulerSweep exDbSched 100 (fun i => decide (i = 2))) 1
        = some (markSentAnn 100 (exAnnSched 1 10))
    ∧ (exAnnSched 2 20) ∈ dueList (schedulerSweep exDbSched 100 (fun i => decide (i = 2))) 100 :=
  have h2 := (sweep_failure_isolated_and_retried exDbSched 100 (fun i => decide (i = 2))
    (by decide) (exAnnSched 2 20) (by decide) (by decide)).1 (by decide)
  have h1 := (sweep_failure_isolated_and_retried exDbSched 100 (fun i => decide (i = 2))
    (by decide) (exAnnSched 1 10) (by decide) (by decide)).2 (by decide)
  ⟨h2.1, h1, h2.2.2 100 (Nat.le_refl 100)⟩

/-! ### C8: markRead semantics and idempotence -/

/-- C8: `markRead(notificationId, userId)` fails with NotFoundError when no
notification has that id, with ForbiddenError when it belongs to a
different user; when it belongs to the caller it reports success and sets
`is_read` (and nothing else) on the caller's rows with that id, and a
second identical call is a no-op that still reports success. -/
theorem markRead_spec (db : DB) (nid uid : Nat) :
    (db.notifications.find? (fun x => x.notification_id = nid) = none →
      markRead db nid uid = (db, MarkReadRes.notFound))
    ∧ (∀ n, db.notifications.find? (fun x => x.notification_id = nid) = some n →
        n.user_id ≠ uid → markRead db nid uid = (db, MarkReadRes.forbidden))
    ∧ (∀ n, db.notifications.find? (fun x => x.notification_id = nid) = some n →
        n.user_id = uid →
        (markRead db nid uid).2 = MarkReadRes.success nid
        ∧ ((markRead db nid uid).1).notifications
            = (if n.is_read then db.notifications
               else db.notifications.map (fun x =>
                 if x.notification_id = nid && x.user_id = uid then
                   { x with is_read := true } else x))
        ∧ markRead (markRead db nid uid).1 nid uid
            = ((markRead db nid uid).1, MarkReadRes.success nid)) := by
  refine ⟨?_, ?_, ?_⟩
  · intro h
    unfold markRead
    rw [h]
  · intro n hn hne
    unfold markRead
    rw [hn]
    dsimp only
    rw [if_pos hne]
  · intro n hn he
    have hnn : ¬(n.user_id ≠ uid) := not_not_intro he
    have hn_id : n.notification_id = nid := by
      have := List.find?_some hn
      exact of_decide_eq_true this
    by_cases hr : n.is_read
    · have hcall : markRead db nid uid = (db, MarkReadRes.success nid) := by
        unfold markRead
        rw [hn]
        dsimp only
        rw [if_neg hnn]
        simp [hr]
      refine ⟨by rw [hcall], by rw [hcall, if_pos hr], ?_⟩
      rw [hcall]
      exact hcall
    · have hcall : markRead db nid uid =
          ({ db with notifications := db.notifications.map (fun x =>
              if x.notification_id = nid && x.user_id = uid then
                { x with is_read := true } else x) }, MarkReadRes.success nid) := by
        unfold markRead
        rw [hn]
        dsimp only
        rw [if_neg hnn]
        simp [hr]
      refine ⟨by rw [hcall], by rw [hcall, if_neg hr], ?_⟩
      rw [hcall]
      have hfind2 : (db.notifications.map (fun x =>
          if x.notification_id = nid && x.user_id = uid then
            { x with is_read := true } else x)).find?
            (fun x => x.notification_id = nid)
          = some (if n.notification_id = nid && n.user_id = uid then
              { n with is_read := true } else n) := by
        rw [find?_map_of_pred _ _ ?hp, hn]
        case hp =>
          intro x
          cases hx : (decide (x.notification_id = nid) && decide (x.user_id = uid)) <;>
            rfl
        rfl
      have hcond : (n.notification_id = nid && n.user_id = uid) = true := by
        simp [hn_id, he]
      rw [hcond] at hfind2
      simp only [if_true] at hfind2
      unfold markRead
      rw [hfind2]
      dsimp only
      rw [if_neg (not_not_intro he)]
      simp

/-- Witness for C8 on a concrete database: missing id, foreign owner,
owned unread notification, and the idempotent second call. -/
theorem markRead_spec_witness :
    markRead exDbLegacy 99 7 = (exDbLegacy, MarkReadRes.notFound)
    ∧ markRead exDbLegacy 5 9 = (exDbLegacy, MarkReadRes.forbidden)
    ∧ (markRead exDbLegacy 5 7).2 = MarkReadRes.success 5
    ∧ markRead (markRead exDbLegacy 5 7).1 5 7
        = ((markRead exDbLegacy 5 7).1, MarkReadRes.success 5) :=
  have h := markRead_spec exDbLegacy 5 7
  have h3 := h.2.2 exNotifLegacy (by decide) (by decide)
  ⟨(markRead_spec exDbLegacy 99 7).1 (by decide),
   (markRead_spec exDbLegacy 5 9).2.1 exNotifLegacy (by decide) (by decide),
   h3.1, h3.2.2⟩

/-! ### Fold characterizations for the SQL aggregates -/

theorem foldl_min_mem : ∀ (l : List Nat) (x : Nat), l.foldl min x ∈ x :: l := by
  intro l
  induction l with
  | nil => intro x; simp
  | cons y l ih =>
    intro x
    rw [List.foldl_cons]
    rcases List.mem_cons.mp (ih (min x y)) with h1 | h1
    · rcases min_choice x y with h2 | h2 <;> rw [h1, h2]
      · exact List.mem_cons_self _ _
      · exact List.mem_cons_of_mem _ (List.mem_cons_self _ _)
    · exact List.mem_cons_of_mem _ (List.mem_cons_of_mem _ h1)

theorem foldl_min_le : ∀ (l : List Nat) (x y : Nat), y ∈ x :: l → l.foldl min x ≤ y := by
  intro l
  induction l with
  | nil =>
    intro x y hy
    rcases List.mem_cons.mp hy with h1 | h1
    · simp [h1]
    · cases h1
  | cons z l ih =>
    intro x y hy
    rw [List.foldl_cons]
    rcases List.mem_cons.mp hy with h1 | h1
    · subst h1
      exact Nat.le_trans (ih (min y z) (min y z) (List.mem_cons_self _ _)) (min_le_left _ _)
    · rcases List.mem_cons.mp h1 with h2 | h2
      · subst h2
        exact Nat.le_trans (ih (min x y) (min x y) (List.mem_cons_self _ _)) (min_le_right _ _)
      · exact ih (min x z) y (List.mem_cons_of_mem _ h2)

theorem foldl_max_mem : ∀ (l : List Nat) (x : Nat), l.foldl max x ∈ x :: l := by
  intro l
  induction l with
  | nil => intro x; simp
  | cons y l ih =>
    intro x
    rw [List.foldl_cons]
    rcases List.mem_cons.mp (ih (max x y)) with h1 | h1
    · rcases max_choice x y with h2 | h2 <;> rw [h1, h2]
      · exact List.mem_cons_self _ _
      · exact List.mem_cons_of_mem _ (List.mem_cons_self _ _)
    · exact List.mem_cons_of_mem _ (List.mem_cons_of_mem _ h1)

theorem foldl_le_max : ∀ (l : List Nat) (x y : Nat), y ∈ x :: l → y ≤ l.foldl max x := by
  intro l
  induction l with
  | nil =>
    intro x y hy
    rcases List.mem_cons.mp hy with h1 | h1
    · simp [h1]
    · cases h1
  | cons z l ih =>
    intro x y hy
    rw [List.foldl_cons]
    rcases List.mem_cons.mp hy with h1 | h1
    · subst h1
      exact Nat.le_trans (le_max_left _ _) (ih (max y z) (max y z) (List.mem_cons_self _ _))
    · rcases List.mem_cons.mp h1 with h2 | h2
      · subst h2
        exact Nat.le_trans (le_max_right _ _) (ih (max x y) (max x y) (List.mem_cons_self _ _))
      · exact ih (max x z) y (List.mem_cons_of_mem _ h2)

theorem optMax_choice (a b : Option Nat) : optMax a b = a ∨ optMax a b = b := by
  unfold optMax
  cases a with
  | none => right; rfl
  | some x =>
    cases b with
    | none => left; rfl
    | some y =>
      rcases max_choice x y with h | h
      · left
        show some (max x y) = some x
        rw [h]
      · right
        show some (max x y) = some y
        rw [h]

/-- The order `SQL MAX` respects on a nullable column: every non-null value
among the inputs is bounded by the (then non-null) result. -/
def oLe (a b : Option Nat) : Prop :=
  ∀ u, a = some u → ∃ t, b = some t ∧ u ≤ t

theorem oLe_optMax_left (a b : Option Nat) : oLe a (optMax a b) := by
  intro u hu
  subst hu
  unfold optMax
  cases b with
  | none => exact ⟨u, rfl, Nat.le_refl u⟩
  | some y => exact ⟨max u y, rfl, le_max_left _ _⟩

theorem oLe_optMax_right (a b : Option Nat) : oLe b (optMax a b) := by
  intro u hu
  subst hu
  unfold optMax
  cases a with
  | none => exact ⟨u, rfl, Nat.le_refl u⟩
  | some x => exact ⟨max x u, rfl, le_max_right _ _⟩

theorem oLe_trans (a b c : Option Nat) (h1 : oLe a b) (h2 : oLe b c) : oLe a c := by
  intro u hu
  rcases h1 u hu with ⟨t, ht, hut⟩
  rcases h2 t ht with ⟨v, hv, htv⟩
  exact ⟨v, hv, Nat.le_trans hut htv⟩

theorem foldl_optMax_mem : ∀ (l : List (Option Nat)) (x : Option Nat),
    l.foldl optMax x ∈ x :: l := by
  intro l
  induction l with
  | nil => intro x; simp
  | cons y l ih =>
    intro x
    rw [List.foldl_cons]
    rcases List.mem_cons.mp (ih (optMax x y)) with h1 | h1
    · rcases optMax_choice x y with h2 | h2 <;> rw [h1, h2]
      · exact List.mem_cons_self _ _
      · exact List.mem_cons_of_mem _ (List.mem_cons_self _ _)
    · exact List.mem_cons_of_mem _ (List.mem_cons_of_mem _ h1)

theorem foldl_optMax_oLe : ∀ (l : List (Option Nat)) (x y : Option Nat),
    y ∈ x :: l → oLe y (l.foldl optMax x) := by
  intro l
  induction l with
  | nil =>
    intro x y hy
    rcases List.mem_cons.mp hy with h1 | h1
    · subst h1
      exact fun u hu => ⟨u, hu, Nat.le_refl u⟩
    · cases h1
  | cons z l ih =>
    intro x y hy
    rw [List.foldl_cons]
    rcases List.mem_cons.mp hy with h1 | h1
    · subst h1
      exact oLe_trans _ _ _ (oLe_optMax_left y z)
        (ih (optMax y z) (optMax y z) (List.mem_cons_self _ _))
    · rcases List.mem_cons.mp h1 with h2 | h2
      · subst h2
        exact oLe_trans _ _ _ (oLe_optMax_right x y)
          (ih (optMax x y) (optMax x y) (List.mem_cons_self _ _))
      · exact ih (optMax x z) y (List.mem_cons_of_mem _ h2)

theorem severityRank_cases (s : String) :
    severityRank s = 2 ∨ severityRank s = 1 ∨ severityRank s = 0 := by
  unfold severityRank
  by_cases h1 : s = "sent"
  · simp [h1]
  · by_cases h2 : s = "scheduled" <;> simp [h1, h2]

theorem severityRank_eq_two_iff (s : String) : severityRank s = 2 ↔ s = "sent" := by
  unfold severityRank
  by_cases h1 : s = "sent"
  · simp [h1]
  · by_cases h2 : s = "scheduled" <;> simp [h1, h2]

theorem severityRank_eq_one_iff (s : String) : severityRank s = 1 ↔ s = "scheduled" := by
  unfold severityRank
  by_cases h1 : s = "sent"
  · simp [h1]
  · by_cases h2 : s = "scheduled" <;> simp [h1, h2]

theorem severityRank_le_two (s : String) : severityRank s ≤ 2 := by
  rcases severityRank_cases s with h | h | h <;> simp [h]

theorem rankToStatus_eq_sent_iff (r : Nat) (hub : r ≤ 2) :
    rankToStatus r = "Sent" ↔ r = 2 := by
  unfold rankToStatus
  by_cases h : 2 ≤ r
  · rw [if_pos h]
    exact ⟨fun _ => by omega, fun _ => rfl⟩
  · rw [if_neg h]
    constructor
    · intro hs
      by_cases h1 : r = 1
      · rw [if_pos h1] at hs
        exact absurd hs (by decide)
      · rw [if_neg h1] at hs
        exact absurd hs (by decide)
    · intro h2
      omega

theorem rankToStatus_eq_scheduled_iff (r : Nat) :
    rankToStatus r = "Scheduled" ↔ r = 1 := by
  unfold rankToStatus
  by_cases h : 2 ≤ r
  · rw [if_pos h]
    constructor
    · intro hs
      exact absurd hs (by decide)
    · intro h1
      omega
  · rw [if_neg h]
    by_cases h1 : r = 1
    · rw [if_pos h1]
      exact ⟨fun _ => h1, fun _ => rfl⟩
    · rw [if_neg h1]
      constructor
      · intro hs
        exact absurd hs (by decide)
      · intro h2
        exact absurd h2 h1

theorem rankToStatus_eq_draft_iff (r : Nat) (hub : r ≤ 2) :
    rankToStatus r = "Draft" ↔ r = 0 := by
  unfold rankToStatus
  by_cases h : 2 ≤ r
  · rw [if_pos h]
    constructor
    · intro hs
      exact absurd hs (by decide)
    · intro h0
      omega
  · rw [if_neg h]
    by_cases h1 : r = 1
    · rw [if_pos h1]
      constructor
      · intro hs
        exact absurd hs (by decide)
      · intro h0
        omega
    · rw [if_neg h1]
      exact ⟨fun _ => by omega, fun _ => rfl⟩

theorem severity_fold_spec (n : Notification) (rest : List Notification) :
    ((rest.map (fun m => severityRank m.status)).foldl max (severityRank n.status) ≤ 2)
    ∧ ((rest.map (fun m => severityRank m.status)).foldl max (severityRank n.status) = 2
        ↔ ∃ m ∈ n :: rest, m.status = "sent")
    ∧ ((rest.map (fun m => severityRank m.status)).foldl max (severityRank n.status) = 1
        ↔ (∀ m ∈ n :: rest, m.status ≠ "sent") ∧ ∃ m ∈ n :: rest, m.status = "scheduled")
    ∧ ((rest.map (fun m => severityRank m.status)).foldl max (severityRank n.status) = 0
        ↔ ∀ m ∈ n :: rest, m.status ≠ "sent" ∧ m.status ≠ "scheduled") := by
  have hrmem : (rest.map (fun m => severityRank m.status)).foldl max (severityRank n.status)
      ∈ (n :: rest).map (fun m => severityRank m.status) := by
    rw [List.map_cons]
    exact foldl_max_mem _ _
  have hrub : ∀ m ∈ n :: rest, severityRank m.status
      ≤ (rest.map (fun m => severityRank m.status)).foldl max (severityRank n.status) := by
    intro m hm
    apply foldl_le_max
    rcases List.mem_cons.mp hm with h1 | h1
    · subst h1
      exact List.mem_cons_self _ _
    · exact List.mem_cons_of_mem _ (List.mem_map.mpr ⟨m, h1, rfl⟩)
  rcases List.mem_map.mp hrmem with ⟨m0, hm0, hm0r⟩
  have hub : (rest.map (fun m => severityRank m.status)).foldl max (severityRank n.status) ≤ 2 :=
    hm0r ▸ severityRank_le_two m0.status
  refine ⟨hub, ?_, ?_, ?_⟩
  · constructor
    · intro h2
      exact ⟨m0, hm0, (severityRank_eq_two_iff m0.status).mp (hm0r.trans h2)⟩
    · rintro ⟨m, hm, hms⟩
      have h2 : severityRank m.status = 2 := (severityRank_eq_two_iff _).mpr hms
      have hb := hrub m hm
      omega
  · constructor
    · intro h1
      refine ⟨?_, ⟨m0, hm0, (severityRank_eq_one_iff m0.status).mp (hm0r.trans h1)⟩⟩
      intro m hm hms
      have h2 : severityRank m.status = 2 := (severityRank_eq_two_iff _).mpr hms
      have hb := hrub m hm
      omega
    · rintro ⟨hall, m, hm, hms⟩
      have hle1 : ∀ m2, m2 ∈ n :: rest → severityRank m2.status ≤ 1 := by
        intro m2 hm2
        rcases severityRank_cases m2.status with h | h | h
        · exact absurd ((severityRank_eq_two_iff _).mp h) (hall m2 hm2)
        · omega
        · omega
      have h1 : severityRank m.status = 1 := (severityRank_eq_one_iff _).mpr hms
      have hlb := hrub m hm
      have hub1 := hle1 m0 hm0
      omega
  · constructor
    · intro h0 m hm
      have hb := hrub m hm
      constructor
      · intro hms
        have h2 : severityRank m.status = 2 := (severityRank_eq_two_iff _).mpr hms
        omega
      · intro hms
        have h1 : severityRank m.status = 1 := (severityRank_eq_one_iff _).mpr hms
        omega
    · intro hall
      have h0 : severityRank m0.status = 0 := by
        rcases severityRank_cases m0.status with h | h | h
        · exact absurd ((severityRank_eq_two_iff _).mp h) (hall m0 hm0).1
        · exact absurd ((severityRank_eq_one_iff _).mp h) (hall m0 hm0).2
        · exact h
      omega

theorem min_fold_spec (n : Notification) (rest : List Notification) :
    ((rest.map (fun m => m.created_at)).foldl min n.created_at
        ∈ (n :: rest).map (fun m => m.created_at))
    ∧ ∀ m ∈ n :: rest,
        (rest.map (fun m => m.created_at)).foldl min n.created_at ≤ m.created_at := by
  constructor
  · rw [List.map_cons]
    exact foldl_min_mem _ _
  · intro m hm
    apply foldl_min_le
    rcases List.mem_cons.mp hm with h1 | h1
    · subst h1
      exact List.mem_cons_self _ _
    · exact List.mem_cons_of_mem _ (List.mem_map.mpr ⟨m, h1, rfl⟩)

theorem optMax_fold_spec (f : Notification → Option Nat) (n : Notification)
    (rest : List Notification) :
    ((rest.map f).foldl optMax (f n) = none ∧ ∀ m ∈ n :: rest, f m = none)
    ∨ (∃ t, (rest.map f).foldl optMax (f n) = some t
        ∧ (∃ m ∈ n :: rest, f m = some t)
        ∧ ∀ m ∈ n :: rest, ∀ u, f m = some u → u ≤ t) := by
  have hmem : (rest.map f).foldl optMax (f n) ∈ (n :: rest).map f := by
    rw [List.map_cons]
    exact foldl_optMax_mem _ _
  have hub : ∀ m ∈ n :: rest, oLe (f m) ((rest.map f).foldl optMax (f n)) := by
    intro m hm
    apply foldl_optMax_oLe
    rcases List.mem_cons.mp hm with h1 | h1
    · subst h1
      exact List.mem_cons_self _ _
    · exact List.mem_cons_of_mem _ (List.mem_map.mpr ⟨m, h1, rfl⟩)
  cases hv : (rest.map f).foldl optMax (f n) with
  | none =>
    left
    refine ⟨rfl, ?_⟩
    intro m hm
    cases hfm : f m with
    | none => rfl
    | some u =>
      rcases hub m hm u hfm with ⟨t, ht, _⟩
      rw [hv] at ht
      cases ht
  | some t =>
    right
    refine ⟨t, rfl, ?_, ?_⟩
    · rcases List.mem_map.mp hmem with ⟨m, hm, hfm⟩
      rw [hv] at hfm
      exact ⟨m, hm, hfm⟩
    · intro m hm u hfm
      rcases hub m hm u hfm with ⟨t2, ht2, hu⟩
      rw [hv] at ht2
      injection ht2 with ht2
      rw [ht2]
      exact hu

theorem aggOf_viewKey (src : List Notification)
    (k : Option Nat × Option String × Option String) (g : AnnView)
    (h : aggOf src k = some g) : viewKey g = k := by
  unfold aggOf at h
  cases heq : src.filter (fun n => notifKey n = k) with
  | nil =>
    rw [heq] at h
    cases h
  | cons n rest =>
    rw [heq] at h
    dsimp only at h
    injection h with h
    subst h
    rfl

theorem aggOf_spec (src : List Notification)
    (k : Option Nat × Option String × Option String) (g : AnnView)
    (h : aggOf src k = some g) :
    src.filter (fun n => notifKey n = k) ≠ []
    ∧ (g.status = "Sent" ↔
        ∃ m ∈ src.filter (fun n => notifKey n = k), m.status = "sent")
    ∧ (g.status = "Scheduled" ↔
        (∀ m ∈ src.filter (fun n => notifKey n = k), m.status ≠ "sent")
        ∧ ∃ m ∈ src.filter (fun n => notifKey n = k), m.status = "scheduled")
    ∧ (g.status = "Draft" ↔
        ∀ m ∈ src.filter (fun n => notifKey n = k),
          m.status ≠ "sent" ∧ m.status ≠ "scheduled")
    ∧ (g.created_at ∈ (src.filter (fun n => notifKey n = k)).map (fun m => m.created_at)
        ∧ ∀ m ∈ src.filter (fun n => notifKey n = k), g.created_at ≤ m.created_at)
    ∧ ((g.scheduled_at = none
          ∧ ∀ m ∈ src.filter (fun n => notifKey n = k), m.scheduled_at = none)
        ∨ ∃ t, g.scheduled_at = some t
            ∧ (∃ m ∈ src.filter (fun n => notifKey n = k), m.scheduled_at = some t)
            ∧ ∀ m ∈ src.filter (fun n => notifKey n = k), ∀ u,
                m.scheduled_at = some u → u ≤ t)
    ∧ ((g.sent_at = none
          ∧ ∀ m ∈ src.filter (fun n => notifKey n = k), m.sent_at = none)
        ∨ ∃ t, g.sent_at = some t
            ∧ (∃ m ∈ src.filter (fun n => notifKey n = k), m.sent_at = some t)
            ∧ ∀ m ∈ src.filter (fun n => notifKey n = k), ∀ u,
                m.sent_at = some u → u ≤ t) := by
  unfold aggOf at h
  cases heq : src.filter (fun n => notifKey n = k) with
  | nil =>
    rw [heq] at h
    cases h
  | cons n rest =>
    rw [heq] at h
    dsimp only at h
    injection h with h
    subst h
    have hsev := severity_fold_spec n rest
    refine ⟨by simp, ?_, ?_, ?_, min_fold_spec n rest, optMax_fold_spec _ n rest,
      optMax_fold_spec _ n rest⟩
    · dsimp only
      rw [rankToStatus_eq_sent_iff _ hsev.1]
      exact hsev.2.1
    · dsimp only
      rw [rankToStatus_eq_scheduled_iff]
      exact hsev.2.2.1
    · dsimp only
      rw [rankToStatus_eq_draft_iff _ hsev.1]
      exact hsev.2.2.2

theorem aggOf_isSome_of_mem (src : List Notification)
    (k : Option Nat × Option String × Option String)
    (h : k ∈ src.map notifKey) : (aggOf src k).isSome = true := by
  rcases List.mem_map.mp h with ⟨n, hn, hk⟩
  unfold aggOf
  cases heq : src.filter (fun m => notifKey m = k) with
  | cons m rest => rfl
  | nil =>
    exfalso
    have hmem : n ∈ src.filter (fun m => notifKey m = k) :=
      List.mem_filter.mpr ⟨hn, by simp [hk]⟩
    rw [heq] at hmem
    cases hmem

theorem filterMap_aggOf_map_viewKey (src : List Notification) :
    ∀ ks : List (Option Nat × Option String × Option String),
      (∀ k ∈ ks, (aggOf src k).isSome = true) →
      (ks.filterMap (aggOf src)).map viewKey = ks := by
  intro ks
  induction ks with
  | nil => intro _; rfl
  | cons k ks ih =>
    intro h
    rw [List.filterMap_cons]
    cases hk : aggOf src k with
    | none =>
      exfalso
      have hs := h k (List.mem_cons_self _ _)
      rw [hk] at hs
      cases hs
    | some g =>
      rw [List.map_cons, aggOf_viewKey src k g hk,
        ih (fun k2 hk2 => h k2 (List.mem_cons_of_mem _ hk2))]

/-- An in-app notification row with a NULL title. -/
def exNotifNullTitle : Notification :=
  { notification_id := 1, user_id := 7, event_id := some 1, created_by := none,
    type := "in-app", title := none, message := some "M", status := "sent",
    is_read := false, scheduled_at := none, scheduled_by := none, attempts := 0,
    error_message := none, created_at := 5, sent_at := some 6 }

/-! ### C9: the announcements list projection -/

/-- C9 counterexample: an `in-app` notification row with a NULL title is an
in-app row, yet `listAnnouncements` omits it entirely (the query filters
`title IS NOT NULL AND message IS NOT NULL`), so the projection does not
cover all in-app rows as the claim states. -/
theorem listAnnouncements_drops_null_title_cx :
    exNotifNullTitle.type = "in-app" ∧ listAnnouncements [exNotifNullTitle] = [] := by
  decide

/-- C9 amended: `listAnnouncements` returns the `in-app` notification rows
having non-null title and message, grouped by (event, title, message):
every such row's key appears exactly once in the output, each group's
status is the maximum severity over its member rows
(`sent` > `scheduled` > anything else → `Draft`), its created_at is the
earliest member created_at, its scheduled_at the latest non-null member
scheduled_at (null if all null), its sent_at the latest non-null member
sent_at, and the output is ordered by (group) created_at descending. -/
theorem listAnnouncements_grouped_projection (rows : List Notification) :
    List.Pairwise (fun g1 g2 => g2.created_at ≤ g1.created_at) (listAnnouncements rows)
    ∧ ((listAnnouncements rows).map viewKey).Nodup
    ∧ (∀ k, k ∈ (listAnnouncements rows).map viewKey ↔
        ∃ n ∈ rows, isAnnSource n = true ∧ notifKey n = k)
    ∧ (∀ g ∈ listAnnouncements rows,
        membersOf rows (viewKey g) ≠ []
        ∧ (g.status = "Sent" ↔ ∃ m ∈ membersOf rows (viewKey g), m.status = "sent")
        ∧ (g.status = "Scheduled" ↔
            (∀ m ∈ membersOf rows (viewKey g), m.status ≠ "sent")
            ∧ ∃ m ∈ membersOf rows (viewKey g), m.status = "scheduled")
        ∧ (g.status = "Draft" ↔
            ∀ m ∈ membersOf rows (viewKey g), m.status ≠ "sent" ∧ m.status ≠ "scheduled")
        ∧ (g.created_at ∈ (membersOf rows (viewKey g)).map (fun m => m.created_at)
            ∧ ∀ m ∈ membersOf rows (viewKey g), g.created_at ≤ m.created_at)
        ∧ ((g.scheduled_at = none
              ∧ ∀ m ∈ membersOf rows (viewKey g), m.scheduled_at = none)
            ∨ ∃ t, g.scheduled_at = some t
                ∧ (∃ m ∈ membersOf rows (viewKey g), m.scheduled_at = some t)
                ∧ ∀ m ∈ membersOf rows (viewKey g), ∀ u, m.scheduled_at = some u → u ≤ t)
        ∧ ((g.sent_at = none
              ∧ ∀ m ∈ membersOf rows (viewKey g), m.sent_at = none)
            ∨ ∃ t, g.sent_at = some t
                ∧ (∃ m ∈ membersOf rows (viewKey g), m.sent_at = some t)
                ∧ ∀ m ∈ membersOf rows (viewKey g), ∀ u, m.sent_at = some u → u ≤ t)) := by
  have hperm : List.Perm (listAnnouncements rows)
      ((((srcRows rows).map notifKey).dedup).filterMap (aggOf (srcRows rows))) :=
    List.perm_insertionSort viewLe _
  have hsome : ∀ k ∈ ((srcRows rows).map notifKey).dedup,
      (aggOf (srcRows rows) k).isSome = true :=
    fun k hk => aggOf_isSome_of_mem _ k (List.mem_dedup.mp hk)
  have hkeys : (((((srcRows rows).map notifKey).dedup).filterMap
      (aggOf (srcRows rows))).map viewKey) = ((srcRows rows).map notifKey).dedup :=
    filterMap_aggOf_map_viewKey _ _ hsome
  refine ⟨?_, ?_, ?_, ?_⟩
  · exact List.sorted_insertionSort viewLe _
  · have hnd : ((((((srcRows rows).map notifKey).dedup).filterMap
        (aggOf (srcRows rows))).map viewKey)).Nodup := by
      rw [hkeys]
      exact List.nodup_dedup _
    exact ((hperm.map viewKey).nodup_iff).mpr hnd
  · intro k
    constructor
    · intro hk
      have hk2 := (hperm.map viewKey).mem_iff.mp hk
      rw [hkeys] at hk2
      rcases List.mem_map.mp (List.mem_dedup.mp hk2) with ⟨n, hn, hkey⟩
      unfold srcRows at hn
      have hn2 := List.mem_filter.mp hn
      exact ⟨n, hn2.1, hn2.2, hkey⟩
    · rintro ⟨n, hn, hsrc, hkey⟩
      apply (hperm.map viewKey).mem_iff.mpr
      rw [hkeys]
      apply List.mem_dedup.mpr
      apply List.mem_map.mpr
      refine ⟨n, ?_, hkey⟩
      unfold srcRows
      exact List.mem_filter.mpr ⟨hn, hsrc⟩
  · intro g hg
    rcases List.mem_filterMap.mp (hperm.mem_iff.mp hg) with ⟨k, hk, hagg⟩
    have hkey := aggOf_viewKey _ _ _ hagg
    have hspec := aggOf_spec _ _ _ hagg
    rw [hkey]
    unfold membersOf
    exact hspec

/-- Witness for the amended C9 on a concrete row set: the key of a titled
in-app row appears in the projection. -/
theorem listAnnouncements_grouped_projection_witness :
    (some 1, some "T", some "M") ∈ (listAnnouncements [exNotifLegacy]).map viewKey :=
  ((listAnnouncements_grouped_projection [exNotifLegacy]).2.2.1
    (some 1, some "T", some "M")).mpr ⟨exNotifLegacy, by decide, by decide, by decide⟩
